import Mathlib

/-!
Verification of the octolens bounded-concurrency file-analysis pipeline.

This file gives a shallow embedding of the pipeline code in
`packages/core/src/utils/files.ts`, `packages/core/src/utils/project-reader.ts`,
`packages/core/src/utils/performance-tracker.ts` and
`packages/core/src/config/index.ts`, together with theorems settling the
claims about it.  Pure functions of the source are translated as Lean
functions; the concurrency primitive (the `Semaphore` class) is translated
as an explicit transition system; the external analyzer is a parameter.
-/

namespace Octolens

/-- JavaScript `x || d` for an optional numeric option: `undefined` and `0`
are falsy and fall back to the default. -/
def jsOr (x : Option Nat) (d : Nat) : Nat :=
  match x with
  | none => d
  | some 0 => d
  | some n => n

/-- JavaScript `x && x > cap` for an optional numeric `x`: `undefined` and
`0` are falsy, so the comparison only fires for a present, non-zero size. -/
def jsTruthyGt (x : Option Nat) (cap : Nat) : Bool :=
  match x with
  | none => false
  | some s => s != 0 && decide (s > cap)

/-- Helper for `jsIncludes`: whether `sub` is a prefixOf of `l`
(character lists, JavaScript semantics: empty pattern matches). -/
def charsStartWith : List Char → List Char → Bool
  | [], _ => true
  | _ :: _, [] => false
  | a :: as, b :: bs => a == b && charsStartWith as bs

/-- Helper for `jsIncludes`: whether `sub` occurs contiguously in `l`. -/
def charsContain (sub : List Char) : List Char → Bool
  | [] => charsStartWith sub []
  | c :: rest => charsStartWith sub (c :: rest) || charsContain sub rest

/-- JavaScript `s.includes(sub)`: substring test. -/
def jsIncludes (s sub : String) : Bool :=
  charsContain sub.data s.data

/-- File attributes of a `ProjectNode` of type `file` (directory-tree
output shape): `size` and `extension` are optional fields. -/
structure FileMeta where
  name : String
  path : String
  extension : Option String
  size : Option Nat
deriving DecidableEq

/-- The `ProjectNode` tree (`project-reader.ts`): a file leaf or a
directory with a children list (a missing `children` field is the empty
list). -/
inductive ProjectNode where
  | file (meta : FileMeta)
  | dir (name : String) (children : List ProjectNode)

/-- Options record (`AnalysisOptions`): every numeric field is optional, as
in the TypeScript interface. -/
structure AnalysisOptions where
  concurrentLimit : Option Nat := none
  batchSize : Option Nat := none
  maxRetries : Option Nat := none
  retryDelay : Option Nat := none
  maxFileSize : Option Nat := none
deriving DecidableEq

/-- File size limit constant of `project-reader.ts`: `MAX_FILE_SIZE = 100 * 1024`. -/
def MAX_FILE_SIZE : Nat := 100 * 1024

/-- The `AI_PROGRAMMING_FILE_TYPES.code` list of `project-reader.ts`. -/
def AI_PROGRAMMING_FILE_TYPES_code : List String :=
  [".js", ".ts", ".jsx", ".tsx", ".mjs", ".cjs", ".vue", ".svelte", ".astro"]

/-- The `FILE_PRIORITY_WEIGHTS.code` table (`utils/options`): entry list in
object-literal order.  Note this table has no `.mjs` / `.cjs` entries. -/
def FILE_PRIORITY_WEIGHTS_code : List (String × Int) :=
  [(".js", 100), (".ts", 100), (".jsx", 100), (".tsx", 100),
   (".vue", 100), (".svelte", 100), (".astro", 100)]

/-- The `FILE_PRIORITY_WEIGHTS.style` table. -/
def FILE_PRIORITY_WEIGHTS_style : List (String × Int) :=
  [(".css", 50), (".scss", 50), (".less", 50), (".sass", 50)]

/-- The `FILE_PRIORITY_WEIGHTS.type` table. -/
def FILE_PRIORITY_WEIGHTS_type : List (String × Int) :=
  [(".d.ts", 80)]

/-- The `FILE_PRIORITY_WEIGHTS.test` table. -/
def FILE_PRIORITY_WEIGHTS_test : List (String × Int) :=
  [(".test.", -20), (".spec.", -20), (".e2e.", -30), (".cy.", -30)]

/-- One `for (const [ext, weight] of Object.entries(table))` loop of
`calculateFilePriority` in `files.ts`: add the weight of the first entry
whose key equals the extension, then `break`; no match adds nothing. -/
def findWeight (entries : List (String × Int)) (ext : String) : Int :=
  match entries with
  | [] => 0
  | (e, w) :: rest => if e = ext then w else findWeight rest ext

/-- The test-marker loop of `calculateFilePriority` in `files.ts`: add the
weight of the first pattern contained in the file name, then `break`. -/
def findTestWeight (patterns : List (String × Int)) (name : String) : Int :=
  match patterns with
  | [] => 0
  | (p, w) :: rest => if jsIncludes name p then w else findTestWeight rest name

/-- `calculateFilePriority` of `files.ts` (lines 84-134): accumulates the
code / style / type weights of the extension, the first matching test-marker
weight of the name, and the size-bucket weight
(`small = 50` below 10 KiB, `medium = 25` below 50 KiB, `large = 0`). -/
def calculateFilePriority (node : FileMeta) (_options : AnalysisOptions) : Int :=
  let extension := node.extension.getD ""
  let p1 := findWeight FILE_PRIORITY_WEIGHTS_code extension
  let p2 := findWeight FILE_PRIORITY_WEIGHTS_style extension
  let p3 := findWeight FILE_PRIORITY_WEIGHTS_type extension
  let p4 := findTestWeight FILE_PRIORITY_WEIGHTS_test node.name
  let fileSize := node.size.getD 0
  let p5 : Int := if fileSize < 10 * 1024 then 50 else if fileSize < 50 * 1024 then 25 else 0
  p1 + p2 + p3 + p4 + p5

/-- The second, independent `calculateFilePriority` defined inside
`project-reader.ts` (lines 385-408): +100 for a core-code extension,
+50 / +25 for a truthy size below 10 KiB / 50 KiB, −20 for a `.test.` or
`.spec.` marker in the name. -/
def calculateFilePriorityPR (node : FileMeta) : Int :=
  let p1 : Int := if (node.extension.getD "") ∈ AI_PROGRAMMING_FILE_TYPES_code then 100 else 0
  let p2 : Int :=
    match node.size with
    | none => 0
    | some s => if s ≠ 0 ∧ s < 10 * 1024 then 50 else if s ≠ 0 ∧ s < 50 * 1024 then 25 else 0
  let p3 : Int :=
    if jsIncludes node.name (".test.") || jsIncludes node.name (".spec.") then -20 else 0
  p1 + p2 + p3

mutual

/-- The inner `collectFiles` of `analyzeProjectWithAI`
(`project-reader.ts` lines 452-463): depth-first, pushes every file leaf,
recurses into directory children; no size filtering. -/
def collectFilesPR : ProjectNode → List FileMeta
  | .file m => [m]
  | .dir _ cs => collectFilesPRList cs

/-- Child loop of `collectFilesPR`. -/
def collectFilesPRList : List ProjectNode → List FileMeta
  | [] => []
  | c :: rest => collectFilesPR c ++ collectFilesPRList rest

end

mutual

/-- The inner `collectFiles` of `collectAndSortFiles` (`files.ts` lines
35-55), returning `(files, totalSize, skippedFiles)`: a file whose truthy
size exceeds `cap` is skipped and counted; any other file becomes a task
and contributes `size || 0` to the total. -/
def collectFiles (cap : Nat) : ProjectNode → List FileMeta × Nat × Nat
  | .file m =>
      if jsTruthyGt m.size cap then ([], 0, 1)
      else ([m], m.size.getD 0, 0)
  | .dir _ cs => collectFilesList cap cs

/-- Child loop of `collectFiles`. -/
def collectFilesList (cap : Nat) : List ProjectNode → List FileMeta × Nat × Nat
  | [] => ([], 0, 0)
  | c :: rest =>
      let r := collectFiles cap c
      let q := collectFilesList cap rest
      (r.1 ++ q.1, r.2.1 + q.2.1, r.2.2 + q.2.2)

end

/-- Result record of `collectAndSortFiles` (`FileCollectionResult`). -/
structure FileCollectionResult where
  files : List FileMeta
  totalSize : Nat
  skippedFiles : Nat

/-- Effective size cap of `collectAndSortFiles`:
`options.maxFileSize || 100 * 1024`. -/
def effMaxFileSize (options : AnalysisOptions) : Nat :=
  jsOr options.maxFileSize (100 * 1024)

/-- `collectAndSortFiles` (`files.ts` lines 27-79): collect with the size
cap, then sort descending by `calculateFilePriority`
(`files.sort((a, b) => prio(b) - prio(a))`, a stable sort). -/
def collectAndSortFiles (projectTree : ProjectNode) (options : AnalysisOptions) :
    FileCollectionResult :=
  let r := collectFiles (effMaxFileSize options) projectTree
  { files := r.1.mergeSort
      (fun a b => decide (calculateFilePriority b options ≤ calculateFilePriority a options)),
    totalSize := r.2.1,
    skippedFiles := r.2.2 }

/-- Byte total of a list of file tasks (each contributing `size || 0`). -/
def sizeSum (files : List FileMeta) : Nat :=
  (files.map (fun m => m.size.getD 0)).sum

/-- Loop state of the dynamic batching loop: flushed batches, their byte
totals, the current batch and its running byte total. -/
structure BatchState where
  batches : List (List FileMeta)
  batchSizes : List Nat
  currentBatch : List FileMeta
  currentBatchSize : Nat

/-- One iteration of the batching loop (`files.ts` lines 149-167 and the
identical inline loop of `project-reader.ts` lines 558-575): if adding the
file would push the byte total over `maxBytes`, or the batch already holds
`cnt` files, flush the current batch (when non-empty) and start a new batch
holding the pending file; otherwise append the file. -/
def batchStep (maxBytes cnt : Nat) (st : BatchState) (file : FileMeta) : BatchState :=
  let fileSize := file.size.getD 0
  if st.currentBatchSize + fileSize > maxBytes ∨ st.currentBatch.length ≥ cnt then
    { batches := if 0 < st.currentBatch.length then st.batches ++ [st.currentBatch] else st.batches,
      batchSizes := if 0 < st.currentBatch.length then st.batchSizes ++ [st.currentBatchSize] else st.batchSizes,
      currentBatch := [file],
      currentBatchSize := fileSize }
  else
    { st with
      currentBatch := st.currentBatch ++ [file],
      currentBatchSize := st.currentBatchSize + fileSize }

/-- Result record of the batch builder (`BatchResult`). -/
structure BatchResult where
  batches : List (List FileMeta)
  batchSizes : List Nat

/-- The greedy batching loop shared by `buildDynamicBatches` (`files.ts`)
and the inline loop of `analyzeProjectWithAI` (`project-reader.ts`):
fold the step over the files, then flush the final non-empty batch. -/
def buildBatchesCore (maxBytes cnt : Nat) (files : List FileMeta) : BatchResult :=
  let st := files.foldl (batchStep maxBytes cnt) ⟨[], [], [], 0⟩
  if 0 < st.currentBatch.length then
    ⟨st.batches ++ [st.currentBatch], st.batchSizes ++ [st.currentBatchSize]⟩
  else
    ⟨st.batches, st.batchSizes⟩

/-- The byte cap the batch builder enforces.  The code has no separate
`maxBatchBytes` option: `files.ts` line 147 computes it from the count
option as `(options.batchSize || 10) * 1024`. -/
def maxBatchBytes (options : AnalysisOptions) : Nat :=
  jsOr options.batchSize 10 * 1024

/-- `buildDynamicBatches` (`files.ts` lines 139-176): greedy packing with
byte cap `(options.batchSize || 10) * 1024` and count cap
`options.batchSize || 10`. -/
def buildDynamicBatches (files : List FileMeta) (options : AnalysisOptions) : BatchResult :=
  buildBatchesCore (maxBatchBytes options) (jsOr options.batchSize 10) files

/-- File queue of `analyzeProjectWithAI` (`project-reader.ts` lines
452-466): every file leaf, sorted descending by the project-reader
priority (stable sort). -/
def pipelineFileQueue (tree : ProjectNode) : List FileMeta :=
  (collectFilesPR tree).mergeSort
    (fun a b => decide (calculateFilePriorityPR b ≤ calculateFilePriorityPR a))

/-- Batches of `analyzeProjectWithAI` (`project-reader.ts` lines 552-580):
the same greedy loop, with byte cap `batchSize * 1024` and count cap
`batchSize`, where `batchSize` comes from destructuring with default 10
(so only `undefined` falls back, unlike the `||` of `files.ts`). -/
def analyzeProjectBatches (tree : ProjectNode) (options : AnalysisOptions) :
    List (List FileMeta) :=
  (buildBatchesCore (options.batchSize.getD 10 * 1024) (options.batchSize.getD 10)
    (pipelineFileQueue tree)).batches

/-- One invocation of the awaited analyze call inside the `try` block of
`analyzeFileWithRetry`: it either completes with a value or with `null`,
or it throws. -/
inductive AttemptOutcome (α : Type) where
  | ok (res : Option α)
  | err
deriving DecidableEq

/-- Return value of `analyzeFileWithRetry`: a completed analyze call
(possibly `null`), or the terminal-failure marker object built after the
retries are exhausted. -/
inductive RetryOutcome (α : Type) where
  | completed (res : Option α)
  | failMarker
deriving DecidableEq

/-- Observable execution record of one `analyzeFileWithRetry` call tree:
its return value, how many times the analyze call was invoked, the
back-off sleeps performed (in order, in milliseconds), and the increments
applied to the shared `processedCount` / `failedCount` counters. -/
structure RetryExec (α : Type) where
  result : RetryOutcome α
  invocations : Nat
  sleeps : List Nat
  processedInc : Nat
  failedInc : Nat
deriving DecidableEq

/-- `analyzeFileWithRetry` (`project-reader.ts` lines 489-539), with the
behavior of the analyze call per attempt as a parameter.  A completed call
increments `processedCount` and returns.  A throwing call increments
`failedCount`; if `retryCount < maxRetries` the task sleeps
`retryDelay * 2 ^ retryCount` and recurses with `retryCount + 1`,
otherwise it returns the terminal-failure marker. -/
def analyzeFileWithRetry (behavior : Nat → AttemptOutcome α)
    (maxRetries retryDelay retryCount : Nat) : RetryExec α :=
  match behavior retryCount with
  | .ok res =>
      { result := .completed res, invocations := 1, sleeps := [],
        processedInc := 1, failedInc := 0 }
  | .err =>
      if h : retryCount < maxRetries then
        let r := analyzeFileWithRetry behavior maxRetries retryDelay (retryCount + 1)
        { result := r.result, invocations := r.invocations + 1,
          sleeps := retryDelay * 2 ^ retryCount :: r.sleeps,
          processedInc := r.processedInc, failedInc := r.failedInc + 1 }
      else
        { result := .failMarker, invocations := 1, sleeps := [],
          processedInc := 0, failedInc := 1 }
termination_by maxRetries - retryCount
decreasing_by omega

/-- Totals of the shared `processedCount` and `failedCount` counters after
a run over the given per-file analyze behaviors (counter increments
commute, so the totals do not depend on interleaving). -/
def runCounters (behaviors : List (Nat → AttemptOutcome α))
    (maxRetries retryDelay : Nat) : Nat × Nat :=
  behaviors.foldl
    (fun acc b =>
      let r := analyzeFileWithRetry b maxRetries retryDelay 0
      (acc.1 + r.processedInc, acc.2 + r.failedInc))
    (0, 0)

/-- Observable outcome of one `analyzeFileWithAI` call: the returned value
(`none` is `null`) and whether the external `fileAnalysisChain` was
invoked. -/
structure FileAnalysisCall (α : Type) where
  result : Option α
  chainInvoked : Bool
deriving DecidableEq

/-- `analyzeFileWithAI` (`project-reader.ts` lines 321-345), with the
external `fileAnalysisChain` as a parameter (`chain path = none` models a
chain error, which the internal `catch` converts to `null`).  A file whose
truthy size exceeds `MAX_FILE_SIZE` returns `null` at once; a file whose
extension is not in `AI_PROGRAMMING_FILE_TYPES.code` returns `null`
without invoking the chain. -/
def analyzeFileWithAI (chain : String → Option α)
    (filePath _fileName fileExtension : String) (fileSize : Option Nat) :
    FileAnalysisCall α :=
  if jsTruthyGt fileSize MAX_FILE_SIZE then ⟨none, false⟩
  else if fileExtension ∈ AI_PROGRAMMING_FILE_TYPES_code then ⟨chain filePath, true⟩
  else ⟨none, false⟩

/-- Per-file execution of the pipeline (`analyzeFileWithRetry` wrapping the
actual `analyzeFileWithAI` call, which never throws). -/
def pipelineFileExec (chain : String → Option α) (maxRetries retryDelay : Nat)
    (node : FileMeta) : RetryExec α :=
  analyzeFileWithRetry
    (fun _ => .ok (analyzeFileWithAI chain node.path node.name
      (node.extension.getD "") node.size).result)
    maxRetries retryDelay 0

/-- Number of entries one file contributes to the list returned by
`processBatch` (`project-reader.ts` lines 542-550): `Promise.all` results
are filtered with `result !== null`, so a completed `null` contributes
nothing while a completed value or a terminal-failure marker object is
kept. -/
def processBatchKept (r : RetryExec α) : Nat :=
  match r.result with
  | .completed none => 0
  | _ => 1

/-- State of the `Semaphore` class (`project-reader.ts` lines 354-380),
instrumented with the list of outstanding permit holders: `permits` is the
free-permit counter, `waiting` the FIFO resolver queue, `holders` one entry
per acquire that completed and has not been released yet. -/
structure Semaphore where
  permits : Nat
  waiting : List Nat
  holders : List Nat
deriving DecidableEq

/-- Initial semaphore state: `new Semaphore(limit)`. -/
def semInit (limit : Nat) : Semaphore :=
  { permits := limit, waiting := [], holders := [] }

/-- Transitions of the semaphore under an arbitrary schedule of tasks.
`acquireGrant`: `acquire()` with a free permit decrements `permits` and the
caller proceeds.  `acquireWait`: `acquire()` with no free permit appends the
caller to the queue.  `releaseWake`: `release()` hands the permit to the
oldest waiter (`shift`), which proceeds.  `releaseFree`: `release()` with an
empty queue returns the permit. -/
inductive SemStep : Semaphore → Semaphore → Prop where
  | acquireGrant (t : Nat) (s : Semaphore) (h : 0 < s.permits) :
      SemStep s { permits := s.permits - 1, waiting := s.waiting, holders := t :: s.holders }
  | acquireWait (t : Nat) (s : Semaphore) (h : s.permits = 0) :
      SemStep s { permits := s.permits, waiting := s.waiting ++ [t], holders := s.holders }
  | releaseWake (t w : Nat) (s : Semaphore) (rest : List Nat)
      (hh : t ∈ s.holders) (hw : s.waiting = w :: rest) :
      SemStep s { permits := s.permits, waiting := rest, holders := w :: s.holders.erase t }
  | releaseFree (t : Nat) (s : Semaphore) (hh : t ∈ s.holders) (hw : s.waiting = []) :
      SemStep s { permits := s.permits + 1, waiting := [], holders := s.holders.erase t }

/-- Reachability of a semaphore state from `new Semaphore(limit)` under any
schedule. -/
def SemReachable (limit : Nat) (s : Semaphore) : Prop :=
  Relation.ReflTransGen SemStep (semInit limit) s

/-- Partial `ScanConfig` as accepted by `validateConfig`
(`config/index.ts`): only the fields whose zod validation can fail are
modelled; the remaining fields are type-checked only. -/
structure ScanConfigPartial where
  rootPath : Option String := none
  maxDepth : Option Nat := none
deriving DecidableEq

/-- `validateConfig` (`config/index.ts` lines 60-63): merge the partial
config over `DEFAULT_CONFIG` (whose `rootPath` is `process.cwd()`, passed
here as `cwd`), then run `ConfigSchema.parse`, which rejects an empty
`rootPath` (`min(1)`) and a `maxDepth` outside `1..10`.  A zod failure is a
thrown error, modelled as `Except.error`.  No concurrency option is
validated by this schema. -/
def validateConfig (cwd : String) (config : ScanConfigPartial) :
    Except String (String × Nat) :=
  let rootPath := config.rootPath.getD cwd
  let maxDepth := config.maxDepth.getD 5
  if rootPath.length < 1 then .error ("rootPath must be non-empty")
  else if maxDepth < 1 then .error ("maxDepth below minimum")
  else if maxDepth > 10 then .error ("maxDepth above maximum")
  else .ok (rootPath, maxDepth)

/-- Phases of `OctoLensScanner.scanProject` relevant to setup errors: the
scanner validates the config first and only then collects and batches
(steps 3 and 4 of `scanProject`); a validation error aborts before any
work. -/
def scanProjectPhases (cwd : String) (config : ScanConfigPartial)
    (tree : ProjectNode) (options : AnalysisOptions) :
    Except String (FileCollectionResult × BatchResult) :=
  match validateConfig cwd config with
  | .error e => .error e
  | .ok _ =>
      let col := collectAndSortFiles tree options
      .ok (col, buildDynamicBatches col.files options)

/-- Invariant of the batching loop state: every flushed batch obeys the
byte cap or is a singleton, and the running byte total tracks the current
batch, which itself obeys the cap or is a singleton. -/
def BatchInv (maxBytes : Nat) (st : BatchState) : Prop :=
  (∀ b ∈ st.batches, sizeSum b ≤ maxBytes ∨ b.length = 1) ∧
  st.currentBatchSize = sizeSum st.currentBatch ∧
  (sizeSum st.currentBatch ≤ maxBytes ∨ st.currentBatch.length = 1)

/-- Files accumulated by a batching state, flushed batches first. -/
def joinedFiles (st : BatchState) : List FileMeta :=
  st.batches.flatten ++ st.currentBatch

/-- Analyze behavior that throws on the first attempt and completes on
every later attempt (used to exhibit the counter bug of claim C3). -/
def c3FailOnceBehavior : Nat → AttemptOutcome Unit :=
  fun n => if n = 0 then .err else .ok (some ())

/-- Analyze behavior that completes with a value on every attempt. -/
def alwaysOk : Nat → AttemptOutcome Unit :=
  fun _ => .ok (some ())

/-- Priority formula exactly as claim C7 states it (modelled from the
claim, to compare with the source function): +100 for a core-code
extension, the size bucket, the test-marker penalty, and no other term. -/
def c7ClaimFormula (node : FileMeta) : Int :=
  let extension := node.extension.getD ""
  let core : Int :=
    if extension ∈ ([".js", ".ts", ".jsx", ".tsx", ".vue", ".svelte", ".astro"] : List String)
    then 100 else 0
  let sizeBucket : Int :=
    if node.size.getD 0 < 10 * 1024 then 50
    else if node.size.getD 0 < 50 * 1024 then 25 else 0
  let testPenalty : Int :=
    if jsIncludes node.name (".test.") then -20
    else if jsIncludes node.name (".spec.") then -20
    else if jsIncludes node.name (".e2e.") then -30
    else if jsIncludes node.name (".cy.") then -30 else 0
  core + sizeBucket + testPenalty

/-- Amended priority formula: claim C7 plus the two terms the source also
adds, a +50 style-extension term and a +80 term for the literal extension
string `.d.ts`. -/
def c7AmendedFormula (node : FileMeta) : Int :=
  let extension := node.extension.getD ""
  let core : Int :=
    if extension ∈ ([".js", ".ts", ".jsx", ".tsx", ".vue", ".svelte", ".astro"] : List String)
    then 100 else 0
  let style : Int :=
    if extension ∈ ([".css", ".scss", ".less", ".sass"] : List String) then 50 else 0
  let typeDecl : Int := if extension = ".d.ts" then 80 else 0
  let sizeBucket : Int :=
    if node.size.getD 0 < 10 * 1024 then 50
    else if node.size.getD 0 < 50 * 1024 then 25 else 0
  let testPenalty : Int :=
    if jsIncludes node.name (".test.") then -20
    else if jsIncludes node.name (".spec.") then -20
    else if jsIncludes node.name (".e2e.") then -30
    else if jsIncludes node.name (".cy.") then -30 else 0
  core + style + typeDecl + sizeBucket + testPenalty

/-- Small core-code file of the claim C6 scenario. -/
def smallTs (sz : Nat) : FileMeta :=
  { name := "a.ts", path := "a.ts", extension := some ".ts", size := some sz }

/-- Oversized file of the claim C6 scenario (200000 bytes, above the
default 100 KiB cap). -/
def bigTs : FileMeta :=
  { name := "big.ts", path := "big.ts", extension := some ".ts", size := some 200000 }

/-- Input tree of the claim C6 scenario: the given small core-code files
plus two files exceeding the size cap. -/
def c6Tree (szs : List Nat) : ProjectNode :=
  .dir ("root") (szs.map (fun s => .file (smallTs s)) ++ [.file bigTs, .file bigTs])

/-- Options of the claim C6 scenario: `concurrentLimit = 5`,
`batchSize = 10`. -/
def opts6 : AnalysisOptions :=
  { concurrentLimit := some 5, batchSize := some 10 }

/-- Single file used in the claim C4 witness: its 20000 bytes exceed the
default 10240-byte batch cap. -/
def wTs : FileMeta :=
  { name := "w.ts", path := "w.ts", extension := some ".ts", size := some 20000 }

/-- Small core-code file used against claim C8. -/
def aTsMeta : FileMeta :=
  { name := "a.ts", path := "a.ts", extension := some ".ts", size := some 100 }

/-- One-file tree used against claim C8. -/
def treeC8 : ProjectNode :=
  .dir ("r") [.file aTsMeta]

/-- Invalid options used against claim C8: `concurrentLimit = 0`. -/
def optsC8 : AnalysisOptions :=
  { concurrentLimit := some 0, batchSize := some 10 }

/-- Small style file: a `.css` extension is neither a core-code extension
nor free of priority weight. -/
def cssMeta : FileMeta :=
  { name := "a.css", path := "src/a.css", extension := some ".css", size := some 100 }

/-! ### Semaphore invariant -/

/-- One semaphore transition preserves the permit-accounting equation. -/
theorem semStep_preserves (limit : Nat) (a b : Semaphore) (hstep : SemStep a b)
    (h : a.holders.length + a.permits = limit) :
    b.holders.length + b.permits = limit := by
  cases hstep with
  | acquireGrant t _u hp =>
      simp only [List.length_cons]
      omega
  | acquireWait t _u hp =>
      simpa using h
  | releaseWake t w _u rest hh hw =>
      have hl : (a.holders.erase t).length = a.holders.length - 1 :=
        List.length_erase_of_mem hh
      have hpos : 0 < a.holders.length := List.length_pos_of_mem hh
      simp only [List.length_cons, hl]
      omega
  | releaseFree t _u hh hw =>
      have hl : (a.holders.erase t).length = a.holders.length - 1 :=
        List.length_erase_of_mem hh
      have hpos : 0 < a.holders.length := List.length_pos_of_mem hh
      simp only [hl]
      omega

/-- Core safety invariant of the semaphore: outstanding permits plus free
permits always equal the initial limit. -/
theorem sem_holders_add_permits (limit : Nat) (s : Semaphore)
    (h : SemReachable limit s) : s.holders.length + s.permits = limit := by
  induction h with
  | refl => simp [semInit]
  | tail _ hstep ih => exact semStep_preserves limit _ _ hstep ih

/-- Claim C1: at every instant during a run, for every schedule of
concurrent tasks, the number of tasks holding a semaphore permit (acquired
and not yet released) never exceeds the limit the semaphore was
initialized with. -/
theorem c1_semaphore_inflight_bound (limit : Nat) (s : Semaphore)
    (h : SemReachable limit s) : s.holders.length ≤ limit := by
  have := sem_holders_add_permits limit s h
  omega

/-- Witness for claim C1: a concrete schedule of a limit-2 semaphore in
which task 7 holds a permit. -/
theorem c1_semaphore_inflight_bound_witness :
    SemReachable 2 { permits := 1, waiting := [], holders := [7] } ∧
    ({ permits := 1, waiting := [], holders := [7] } : Semaphore).holders.length ≤ 2 := by
  have hstep : SemStep (semInit 2) { permits := 1, waiting := [], holders := [7] } := by
    have h := SemStep.acquireGrant 7 (semInit 2) (by simp [semInit])
    simpa [semInit] using h
  exact ⟨Relation.ReflTransGen.single hstep,
    c1_semaphore_inflight_bound 2 _ (Relation.ReflTransGen.single hstep)⟩

/-! ### Retry schedule -/

/-- Claim C2: with an analyze call that throws on every invocation,
`maxRetries = 3` and `retryDelay = 100`, the retry wrapper invokes the
analyze call exactly 4 times, sleeps 100 ms, 200 ms, 400 ms before the
2nd, 3rd, 4th invocations (so those attempts start no earlier than 100 ms,
300 ms, 700 ms after the first), and returns the terminal-failure marker. -/
theorem c2_retry_schedule {α : Type} (behavior : Nat → AttemptOutcome α)
    (h : ∀ n, behavior n = .err) :
    analyzeFileWithRetry behavior 3 100 0 =
      { result := .failMarker, invocations := 4, sleeps := [100, 200, 400],
        processedInc := 0, failedInc := 4 } ∧
    ((analyzeFileWithRetry behavior 3 100 0).sleeps.take 1).sum = 100 ∧
    ((analyzeFileWithRetry behavior 3 100 0).sleeps.take 2).sum = 300 ∧
    (analyzeFileWithRetry behavior 3 100 0).sleeps.sum = 700 := by
  have e : analyzeFileWithRetry behavior 3 100 0 =
      { result := .failMarker, invocations := 4, sleeps := [100, 200, 400],
        processedInc := 0, failedInc := 4 } := by
    rw [analyzeFileWithRetry, h]
    rw [analyzeFileWithRetry, h]
    rw [analyzeFileWithRetry, h]
    rw [analyzeFileWithRetry, h]
    norm_num
  refine ⟨e, ?_, ?_, ?_⟩ <;> rw [e] <;> rfl

/-- Witness for claim C2: the concrete always-throwing analyze behavior. -/
theorem c2_retry_schedule_witness :
    analyzeFileWithRetry (fun _ : Nat => (AttemptOutcome.err : AttemptOutcome Unit)) 3 100 0 =
      { result := .failMarker, invocations := 4, sleeps := [100, 200, 400],
        processedInc := 0, failedInc := 4 } :=
  (c2_retry_schedule (fun _ => AttemptOutcome.err) (fun _ => rfl)).1

/-! ### Counter bug of claim C3 -/

/-- Claim C3 is violated by the code: for a single collected file whose
analyze call throws once and then completes, the run increments
`processedCount` once and `failedCount` once, so
`processed + failed + skipped = 2` although only one file was collected
(the code counts every failed attempt, not the terminal outcome). -/
theorem c3_counters_eval :
    (runCounters [c3FailOnceBehavior] 3 100).1 = 1 ∧
    (runCounters [c3FailOnceBehavior] 3 100).2 = 1 ∧
    (runCounters [c3FailOnceBehavior] 3 100).1 + (runCounters [c3FailOnceBehavior] 3 100).2 + 0
      ≠ [c3FailOnceBehavior].length := by
  have e1 : analyzeFileWithRetry c3FailOnceBehavior 3 100 1 =
      { result := .completed (some ()), invocations := 1, sleeps := [],
        processedInc := 1, failedInc := 0 } := by
    rw [analyzeFileWithRetry]
    norm_num [c3FailOnceBehavior]
  have e0 : analyzeFileWithRetry c3FailOnceBehavior 3 100 0 =
      { result := .completed (some ()), invocations := 2, sleeps := [100],
        processedInc := 1, failedInc := 1 } := by
    rw [analyzeFileWithRetry]
    norm_num [c3FailOnceBehavior, e1]
  simp [runCounters, e0]

/-! ### Batching invariants -/

/-- Byte totals add over list append. -/
theorem sizeSum_append (a b : List FileMeta) :
    sizeSum (a ++ b) = sizeSum a + sizeSum b := by
  simp [sizeSum]

/-- Byte total of a singleton batch. -/
theorem sizeSum_singleton (m : FileMeta) : sizeSum [m] = m.size.getD 0 := by
  simp [sizeSum]

/-- One step of the batching loop preserves the batch invariant. -/
theorem batchStep_inv (maxBytes cnt : Nat) (st : BatchState) (f : FileMeta)
    (h : BatchInv maxBytes st) : BatchInv maxBytes (batchStep maxBytes cnt st f) := by
  obtain ⟨hb, hsz, hcur⟩ := h
  unfold batchStep
  by_cases hcond : st.currentBatchSize + f.size.getD 0 > maxBytes ∨ st.currentBatch.length ≥ cnt
  · simp only [if_pos hcond]
    refine ⟨?_, by simp [sizeSum_singleton], Or.inr (by simp)⟩
    intro b hbmem
    by_cases hne : 0 < st.currentBatch.length
    · simp only [if_pos hne, List.mem_append, List.mem_singleton] at hbmem
      rcases hbmem with hm | rfl
      · exact hb b hm
      · exact hcur
    · simp only [if_neg hne] at hbmem
      exact hb b hbmem
  · simp only [if_neg hcond]
    push_neg at hcond
    refine ⟨hb, by simp [sizeSum_append, sizeSum_singleton, hsz], Or.inl ?_⟩
    rw [sizeSum_append, sizeSum_singleton, ← hsz]
    exact hcond.1

/-- The batching fold preserves the batch invariant. -/
theorem foldl_batchStep_inv (maxBytes cnt : Nat) :
    ∀ (files : List FileMeta) (st : BatchState), BatchInv maxBytes st →
      BatchInv maxBytes (files.foldl (batchStep maxBytes cnt) st) := by
  intro files
  induction files with
  | nil => intro st h; simpa using h
  | cons f rest ih =>
      intro st h
      simpa using ih (batchStep maxBytes cnt st f) (batchStep_inv maxBytes cnt st f h)

/-- Every batch of the core batching loop obeys the byte cap or is a
singleton. -/
theorem buildBatchesCore_bound (maxBytes cnt : Nat) (files : List FileMeta)
    (b : List FileMeta) (hb : b ∈ (buildBatchesCore maxBytes cnt files).batches) :
    sizeSum b ≤ maxBytes ∨ b.length = 1 := by
  have hinv : BatchInv maxBytes (files.foldl (batchStep maxBytes cnt) ⟨[], [], [], 0⟩) :=
    foldl_batchStep_inv maxBytes cnt files ⟨[], [], [], 0⟩
      ⟨by simp, by simp [sizeSum], Or.inl (by simp [sizeSum])⟩
  set st := files.foldl (batchStep maxBytes cnt) ⟨[], [], [], 0⟩ with hst
  unfold buildBatchesCore at hb
  rw [← hst] at hb
  by_cases hne : 0 < st.currentBatch.length
  · simp only [if_pos hne, List.mem_append, List.mem_singleton] at hb
    rcases hb with hm | rfl
    · exact hinv.1 b hm
    · exact hinv.2.2
  · simp only [if_neg hne] at hb
    exact hinv.1 b hb

/-- Claim C4: every batch produced by the batch builder has a byte sum at
most the byte cap (`maxBatchBytes`, computed by the code as
`(batchSize || 10) * 1024`), except a batch holding exactly one file whose
own size exceeds the cap. -/
theorem c4_batch_bytes_bound (files : List FileMeta) (options : AnalysisOptions)
    (b : List FileMeta) (hb : b ∈ (buildDynamicBatches files options).batches) :
    sizeSum b ≤ maxBatchBytes options ∨
      (b.length = 1 ∧ maxBatchBytes options < sizeSum b) := by
  have h := buildBatchesCore_bound (maxBatchBytes options) (jsOr options.batchSize 10) files b hb
  by_cases hle : sizeSum b ≤ maxBatchBytes options
  · exact Or.inl hle
  · rcases h with h | h
    · exact Or.inl h
    · exact Or.inr ⟨h, by omega⟩

/-- Witness for claim C4: a single 20000-byte file with default options
(byte cap 10240) forms one oversized singleton batch. -/
theorem c4_batch_bytes_bound_witness :
    [wTs] ∈ (buildDynamicBatches [wTs] {}).batches ∧
    (sizeSum [wTs] ≤ maxBatchBytes {} ∨
      ([wTs].length = 1 ∧ maxBatchBytes {} < sizeSum [wTs])) := by
  refine ⟨by decide, c4_batch_bytes_bound [wTs] {} [wTs] (by decide)⟩

/-- One step of the batching loop appends the file to the accumulated
file sequence. -/
theorem batchStep_joined (maxBytes cnt : Nat) (st : BatchState) (f : FileMeta) :
    joinedFiles (batchStep maxBytes cnt st f) = joinedFiles st ++ [f] := by
  unfold batchStep joinedFiles
  by_cases hcond : st.currentBatchSize + f.size.getD 0 > maxBytes ∨ st.currentBatch.length ≥ cnt
  · simp only [if_pos hcond]
    by_cases hne : 0 < st.currentBatch.length
    · simp [if_pos hne]
    · have : st.currentBatch = [] := by
        cases hcb : st.currentBatch with
        | nil => rfl
        | cons a l => rw [hcb] at hne; simp at hne
      simp [if_neg hne, this]
  · simp [if_neg hcond]

/-- The batching fold appends the processed files to the accumulated file
sequence. -/
theorem foldl_batchStep_joined (maxBytes cnt : Nat) :
    ∀ (files : List FileMeta) (st : BatchState),
      joinedFiles (files.foldl (batchStep maxBytes cnt) st) = joinedFiles st ++ files := by
  intro files
  induction files with
  | nil => intro st; simp
  | cons f rest ih =>
      intro st
      rw [List.foldl_cons, ih, batchStep_joined]
      simp

/-- The batches of the core loop concatenate to the input list. -/
theorem buildBatchesCore_flatten (maxBytes cnt : Nat) (files : List FileMeta) :
    (buildBatchesCore maxBytes cnt files).batches.flatten = files := by
  have h := foldl_batchStep_joined maxBytes cnt files ⟨[], [], [], 0⟩
  set st := files.foldl (batchStep maxBytes cnt) ⟨[], [], [], 0⟩ with hst
  have hj : st.batches.flatten ++ st.currentBatch = files := by
    simpa [joinedFiles] using h
  unfold buildBatchesCore
  rw [← hst]
  by_cases hne : 0 < st.currentBatch.length
  · simpa [if_pos hne] using hj
  · have : st.currentBatch = [] := by
      cases hcb : st.currentBatch with
      | nil => rfl
      | cons a l => rw [hcb] at hne; simp at hne
    rw [this] at hj
    simpa [if_neg hne] using hj

/-- Claim C9: for every input list and options, the concatenation of the
batches returned by the batch builder, in order, equals the input list:
no file is dropped, duplicated, or reordered. -/
theorem c9_batches_concat (files : List FileMeta) (options : AnalysisOptions) :
    (buildDynamicBatches files options).batches.flatten = files :=
  buildBatchesCore_flatten (maxBatchBytes options) (jsOr options.batchSize 10) files

/-! ### Collection -/

/-- Truthiness of the size guard, rephrased: the guard is off exactly when
the effective size (`size || 0`) is within the cap. -/
theorem jsTruthyGt_eq_false (x : Option Nat) (cap : Nat) :
    jsTruthyGt x cap = false ↔ x.getD 0 ≤ cap := by
  cases x with
  | none => simp [jsTruthyGt]
  | some s =>
      simp only [jsTruthyGt, Bool.and_eq_false_imp, Option.getD_some, bne_iff_ne,
        decide_eq_false_iff_not, Bool.and_eq_false_iff, bne_eq_false_iff_eq,
        decide_eq_true_eq]
      omega

mutual

/-- Characterization of the filtering collector of `files.ts` over the
plain depth-first leaf list (which is exactly what the collector of
`project-reader.ts` produces): it keeps the files within the cap, sums
their sizes, and counts the dropped ones. -/
theorem collectFiles_eq (cap : Nat) (t : ProjectNode) :
    collectFiles cap t =
      ((collectFilesPR t).filter (fun m => !jsTruthyGt m.size cap),
       sizeSum ((collectFilesPR t).filter (fun m => !jsTruthyGt m.size cap)),
       (collectFilesPR t).countP (fun m => jsTruthyGt m.size cap)) := by
  cases t with
  | file m =>
      cases hj : jsTruthyGt m.size cap with
      | true => simp [collectFiles, collectFilesPR, hj, sizeSum]
      | false => simp [collectFiles, collectFilesPR, hj, sizeSum]
  | dir n cs =>
      simpa [collectFiles, collectFilesPR] using collectFilesList_eq cap cs

/-- List version of `collectFiles_eq`. -/
theorem collectFilesList_eq (cap : Nat) (cs : List ProjectNode) :
    collectFilesList cap cs =
      ((collectFilesPRList cs).filter (fun m => !jsTruthyGt m.size cap),
       sizeSum ((collectFilesPRList cs).filter (fun m => !jsTruthyGt m.size cap)),
       (collectFilesPRList cs).countP (fun m => jsTruthyGt m.size cap)) := by
  cases cs with
  | nil => simp [collectFilesList, collectFilesPRList, sizeSum]
  | cons c rest =>
      have h1 := collectFiles_eq cap c
      have h2 := collectFilesList_eq cap rest
      simp [collectFilesList, collectFilesPRList, h1, h2,
        List.filter_append, List.countP_append, sizeSum_append]

end

/-- The task list of `collectAndSortFiles` is the sorted filtered leaf
list. -/
theorem collectAndSortFiles_files (tree : ProjectNode) (options : AnalysisOptions) :
    (collectAndSortFiles tree options).files =
      ((collectFilesPR tree).filter
          (fun m => !jsTruthyGt m.size (effMaxFileSize options))).mergeSort
        (fun a b => decide (calculateFilePriority b options ≤ calculateFilePriority a options)) := by
  simp [collectAndSortFiles, collectFiles_eq]

/-- The skipped counter of `collectAndSortFiles` counts the oversized
leaves. -/
theorem collectAndSortFiles_skipped (tree : ProjectNode) (options : AnalysisOptions) :
    (collectAndSortFiles tree options).skippedFiles =
      (collectFilesPR tree).countP (fun m => jsTruthyGt m.size (effMaxFileSize options)) := by
  simp [collectAndSortFiles, collectFiles_eq]

/-- Claim C5: every file task produced by collection has size at most
`maxFileSize`; each oversized file increments the skipped count (skipped
plus produced tasks partition the collected leaves), is never produced as
a task, and `analyzeFileWithAI` returns `null` without invoking the
analyzer chain on any file whose size exceeds the cap. -/
theorem c5_oversize_skipped (tree : ProjectNode) (options : AnalysisOptions) :
    (∀ f ∈ (collectAndSortFiles tree options).files,
        f.size.getD 0 ≤ effMaxFileSize options) ∧
    ((collectAndSortFiles tree options).skippedFiles
        + (collectAndSortFiles tree options).files.length
        = (collectFilesPR tree).length) ∧
    (∀ f : FileMeta, effMaxFileSize options < f.size.getD 0 →
        f ∉ (collectAndSortFiles tree options).files) ∧
    (∀ (α : Type) (chain : String → Option α) (p n e : String) (s : Nat),
        MAX_FILE_SIZE < s →
        analyzeFileWithAI chain p n e (some s) = ⟨none, false⟩) := by
  have hmem : ∀ f ∈ (collectAndSortFiles tree options).files,
      f.size.getD 0 ≤ effMaxFileSize options := by
    intro f hf
    rw [collectAndSortFiles_files] at hf
    have hf2 := List.mem_mergeSort.mp hf
    have hp := (List.mem_filter.mp hf2).2
    simp only [Bool.not_eq_eq_eq_not, Bool.not_true] at hp
    exact (jsTruthyGt_eq_false f.size (effMaxFileSize options)).mp hp
  refine ⟨hmem, ?_, ?_, ?_⟩
  · rw [collectAndSortFiles_files, collectAndSortFiles_skipped, List.length_mergeSort,
      List.countP_eq_length_filter]
    exact (List.length_eq_length_filter_add
      (fun m : FileMeta => jsTruthyGt m.size (effMaxFileSize options))).symm
  · intro f hlt hf
    have := hmem f hf
    omega
  · intro α chain p n e s hs
    have hj : jsTruthyGt (some s) MAX_FILE_SIZE = true := by
      simp only [jsTruthyGt, Bool.and_eq_true, bne_iff_ne, ne_eq, decide_eq_true_eq]
      unfold MAX_FILE_SIZE at hs ⊢
      omega
    simp [analyzeFileWithAI, hj]

/-- Witness for claim C5: a two-file tree with one 200000-byte file under
default options; the oversized file is not a task and the analyzer chain
is not invoked on it. -/
theorem c5_oversize_skipped_witness :
    (effMaxFileSize {} < (bigTs.size.getD 0) ∧
      bigTs ∉ (collectAndSortFiles (c6Tree [100]) {}).files) ∧
    ((collectAndSortFiles (c6Tree [100]) {}).skippedFiles
        + (collectAndSortFiles (c6Tree [100]) {}).files.length
        = (collectFilesPR (c6Tree [100])).length) ∧
    analyzeFileWithAI (fun _ => (none : Option Unit)) ("big.ts") ("big.ts") (".ts")
        (some 200000) = ⟨none, false⟩ := by
  have h := c5_oversize_skipped (c6Tree [100]) {}
  have hlt : effMaxFileSize {} < bigTs.size.getD 0 := by decide
  exact ⟨⟨hlt, h.2.2.1 bigTs hlt⟩, h.2.1,
    h.2.2.2 Unit (fun _ => none) ("big.ts") ("big.ts") (".ts") 200000 (by decide)⟩

/-! ### Priority formula -/

/-- The code-weight loop is a membership test: all entries carry weight
100. -/
theorem findWeight_code_eq (ext : String) :
    findWeight FILE_PRIORITY_WEIGHTS_code ext =
      if ext ∈ ([".js", ".ts", ".jsx", ".tsx", ".vue", ".svelte", ".astro"] : List String)
      then 100 else 0 := by
  simp only [findWeight, FILE_PRIORITY_WEIGHTS_code, List.mem_cons, List.not_mem_nil, or_false]
  split_ifs <;> simp_all [eq_comm]

/-- The style-weight loop is a membership test: all entries carry weight
50. -/
theorem findWeight_style_eq (ext : String) :
    findWeight FILE_PRIORITY_WEIGHTS_style ext =
      if ext ∈ ([".css", ".scss", ".less", ".sass"] : List String) then 50 else 0 := by
  simp only [findWeight, FILE_PRIORITY_WEIGHTS_style, List.mem_cons, List.not_mem_nil, or_false]
  split_ifs <;> simp_all [eq_comm]

/-- The type-weight loop tests the literal extension string. -/
theorem findWeight_type_eq (ext : String) :
    findWeight FILE_PRIORITY_WEIGHTS_type ext =
      if ext = ".d.ts" then 80 else 0 := by
  simp only [findWeight, FILE_PRIORITY_WEIGHTS_type]
  split_ifs <;> simp_all [eq_comm]

/-- The test-marker loop is the first-match chain over the four marker
substrings. -/
theorem findTestWeight_eq (name : String) :
    findTestWeight FILE_PRIORITY_WEIGHTS_test name =
      if jsIncludes name (".test.") then -20
      else if jsIncludes name (".spec.") then -20
      else if jsIncludes name (".e2e.") then -30
      else if jsIncludes name (".cy.") then -30 else 0 := by
  simp [findTestWeight, FILE_PRIORITY_WEIGHTS_test]

/-- Counterexample to claim C7 as stated: on a small `.css` file the
source `calculateFilePriority` returns 100 (style weight 50 plus size
weight 50), while the formula of the claim (which admits no term besides
core, size bucket and test penalty) gives 50. -/
theorem c7_counterexample :
    calculateFilePriority cssMeta {} = 100 ∧
    c7ClaimFormula cssMeta = 50 ∧ (100 : Int) ≠ 50 := by
  refine ⟨by decide, by decide, by decide⟩

/-- Claim C7 amended: the priority score equals the claimed sum of the
core-extension term, size-bucket term and first-matching test-marker
penalty, plus two further terms the code also adds: +50 for a style
extension and +80 for the literal extension string `.d.ts`. -/
theorem c7_amended_formula_eq (node : FileMeta) (options : AnalysisOptions) :
    calculateFilePriority node options = c7AmendedFormula node := by
  simp only [calculateFilePriority, c7AmendedFormula, findWeight_code_eq,
    findWeight_style_eq, findWeight_type_eq, findTestWeight_eq]
  ring

/-! ### Non-core files -/

/-- Claim C10: a collected file whose extension is not a core-code
extension yields `null` from `analyzeFileWithAI` without the analyzer
chain being invoked; the retry wrapper completes on the first attempt,
increments `processedCount`, and the `null` result is filtered out of the
batch results. -/
theorem c10_noncode_null {α : Type} (chain : String → Option α) (node : FileMeta)
    (h : node.extension.getD "" ∉ AI_PROGRAMMING_FILE_TYPES_code)
    (maxRetries retryDelay : Nat) :
    analyzeFileWithAI chain node.path node.name (node.extension.getD "") node.size
        = ⟨none, false⟩ ∧
    (pipelineFileExec chain maxRetries retryDelay node).result = .completed none ∧
    (pipelineFileExec chain maxRetries retryDelay node).processedInc = 1 ∧
    processBatchKept (pipelineFileExec chain maxRetries retryDelay node) = 0 := by
  have ha : analyzeFileWithAI chain node.path node.name (node.extension.getD "") node.size
      = ⟨none, false⟩ := by
    unfold analyzeFileWithAI
    by_cases hj : jsTruthyGt node.size MAX_FILE_SIZE
    · simp [hj]
    · simp [hj, h]
  have hp : pipelineFileExec chain maxRetries retryDelay node =
      { result := .completed none, invocations := 1, sleeps := [],
        processedInc := 1, failedInc := 0 } := by
    unfold pipelineFileExec
    rw [analyzeFileWithRetry]
    simp [ha]
  exact ⟨ha, by rw [hp], by rw [hp], by rw [hp]; rfl⟩

/-- Witness for claim C10: the concrete `.css` file. -/
theorem c10_noncode_null_witness :
    analyzeFileWithAI (fun _ => (none : Option Unit)) cssMeta.path cssMeta.name
        (cssMeta.extension.getD "") cssMeta.size = ⟨none, false⟩ ∧
    (pipelineFileExec (fun _ => (none : Option Unit)) 3 1000 cssMeta).processedInc = 1 ∧
    processBatchKept (pipelineFileExec (fun _ => (none : Option Unit)) 3 1000 cssMeta) = 0 := by
  have h := c10_noncode_null (fun _ => (none : Option Unit)) cssMeta (by decide) 3 1000
  exact ⟨h.1, h.2.2.1, h.2.2.2⟩

/-! ### Single-batch condition -/

/-- While the accumulated files stay within both caps, the batching loop
never flushes. -/
theorem foldl_batchStep_noflush (maxBytes cnt : Nat) :
    ∀ (l cur : List FileMeta), cur ≠ [] → cur.length + l.length ≤ cnt →
      sizeSum cur + sizeSum l ≤ maxBytes →
      l.foldl (batchStep maxBytes cnt) ⟨[], [], cur, sizeSum cur⟩ =
        ⟨[], [], cur ++ l, sizeSum (cur ++ l)⟩ := by
  intro l
  induction l with
  | nil => intro cur _ _ _; simp
  | cons f rest ih =>
      intro cur hne hlen hsum
      have hfs : sizeSum (f :: rest) = f.size.getD 0 + sizeSum rest := by
        simp [sizeSum]
      have hs2 : sizeSum cur + (f.size.getD 0 + sizeSum rest) ≤ maxBytes := by
        rw [← hfs]
        exact hsum
      have hcl : cur.length + rest.length + 1 ≤ cnt := by
        simp only [List.length_cons] at hlen
        omega
      have hnocond : ¬ (sizeSum cur + f.size.getD 0 > maxBytes ∨ cur.length ≥ cnt) := by
        push_neg
        exact ⟨by omega, by omega⟩
      rw [List.foldl_cons]
      have hstep : batchStep maxBytes cnt ⟨[], [], cur, sizeSum cur⟩ f =
          ⟨[], [], cur ++ [f], sizeSum (cur ++ [f])⟩ := by
        unfold batchStep
        rw [if_neg hnocond]
        simp [sizeSum_append, sizeSum_singleton]
      rw [hstep]
      have h2 := ih (cur ++ [f])
        (by simp)
        (by simp only [List.length_append, List.length_singleton]; omega)
        (by rw [sizeSum_append, sizeSum_singleton]; omega)
      rw [h2]
      simp

/-- A non-empty file list within both caps forms exactly one batch. -/
theorem buildBatchesCore_single (maxBytes cnt : Nat) (files : List FileMeta)
    (hne : files ≠ []) (hlen : files.length ≤ cnt) (hsum : sizeSum files ≤ maxBytes) :
    (buildBatchesCore maxBytes cnt files).batches = [files] := by
  obtain ⟨f, rest, rfl⟩ := List.exists_cons_of_ne_nil hne
  have hfs : sizeSum (f :: rest) = f.size.getD 0 + sizeSum rest := by
    simp [sizeSum]
  rw [hfs] at hsum
  have hcnt : 0 < cnt := by
    simp only [List.length_cons] at hlen
    omega
  have hstep0 : batchStep maxBytes cnt ⟨[], [], [], 0⟩ f =
      ⟨[], [], [f], sizeSum [f]⟩ := by
    unfold batchStep
    simp only [List.length_nil, Nat.zero_add]
    rw [if_neg (by push_neg; exact ⟨by omega, by omega⟩)]
    simp [sizeSum_singleton]
  unfold buildBatchesCore
  rw [List.foldl_cons, hstep0,
    foldl_batchStep_noflush maxBytes cnt rest [f] (by simp)
      (by simp only [List.length_singleton, List.length_cons, List.length_nil] at hlen ⊢; omega)
      (by rw [sizeSum_singleton]; omega)]
  simp

/-! ### Auxiliary sorting and collection lemmas -/

/-- Sorting a singleton list is the identity. -/
theorem mergeSort_singleton {α : Type} (a : α) (le : α → α → Bool) :
    [a].mergeSort le = [a] := by
  have hm : ∀ b ∈ [a].mergeSort le, b = a := by
    intro b hb
    simpa using List.mem_mergeSort.mp hb
  have h := List.eq_replicate_of_mem hm
  rw [List.length_mergeSort] at h
  simp only [List.length_singleton, List.replicate_one] at h
  exact h

/-- The byte total of a list is invariant under sorting. -/
theorem sizeSum_mergeSort (l : List FileMeta) (le : FileMeta → FileMeta → Bool) :
    sizeSum (l.mergeSort le) = sizeSum l := by
  unfold sizeSum
  exact ((List.mergeSort_perm l le).map _).sum_eq

/-- Depth-first leaf collection distributes over child-list append. -/
theorem collectFilesPRList_append (a b : List ProjectNode) :
    collectFilesPRList (a ++ b) = collectFilesPRList a ++ collectFilesPRList b := by
  induction a with
  | nil => simp [collectFilesPRList]
  | cons c rest ih => simp [collectFilesPRList, ih]

/-- Leaf list of the claim C6 scenario tree. -/
theorem collectFilesPR_c6Tree (szs : List Nat) :
    collectFilesPR (c6Tree szs) = szs.map smallTs ++ [bigTs, bigTs] := by
  have hmap : ∀ l : List Nat,
      collectFilesPRList (l.map (fun s => .file (smallTs s))) = l.map smallTs := by
    intro l
    induction l with
    | nil => simp [collectFilesPRList]
    | cons s rest ih => simp [collectFilesPRList, collectFilesPR, ih]
  simp [c6Tree, collectFilesPR, collectFilesPRList_append, hmap, collectFilesPRList]

/-- In the claim C6 scenario, collection keeps exactly the small files. -/
theorem c6_kept (szs : List Nat) (h : ∀ s ∈ szs, s < 10 * 1024) :
    (collectFilesPR (c6Tree szs)).filter
        (fun m => !jsTruthyGt m.size (effMaxFileSize opts6)) = szs.map smallTs := by
  rw [collectFilesPR_c6Tree, List.filter_append]
  have h1 : (szs.map smallTs).filter
      (fun m => !jsTruthyGt m.size (effMaxFileSize opts6)) = szs.map smallTs := by
    apply List.filter_eq_self.mpr
    intro m hm
    obtain ⟨s, hs, rfl⟩ := List.mem_map.mp hm
    have hlt := h s hs
    have : jsTruthyGt (some s) (effMaxFileSize opts6) = false := by
      apply (jsTruthyGt_eq_false (some s) (effMaxFileSize opts6)).mpr
      simp only [Option.getD_some]
      have : effMaxFileSize opts6 = 100 * 1024 := by decide
      omega
    simp [smallTs, this]
  have h2 : ([bigTs, bigTs] : List FileMeta).filter
      (fun m => !jsTruthyGt m.size (effMaxFileSize opts6)) = [] := by decide
  rw [h1, h2, List.append_nil]

/-- Byte total of the mapped small files of the claim C6 scenario. -/
theorem sizeSum_map_smallTs (l : List Nat) : sizeSum (l.map smallTs) = l.sum := by
  induction l with
  | nil => simp [sizeSum]
  | cons s rest ih =>
      simp only [List.map_cons]
      have h : sizeSum (smallTs s :: rest.map smallTs) = s + sizeSum (rest.map smallTs) := by
        simp [sizeSum, smallTs]
      rw [h, ih, List.sum_cons]

/-- A run of successful analyze calls increments `processedCount` once per
file and `failedCount` never. -/
theorem runCounters_replicate_alwaysOk (k : Nat) :
    runCounters (List.replicate k alwaysOk) 3 1000 = (k, 0) := by
  have hstep : analyzeFileWithRetry alwaysOk 3 1000 0 =
      { result := .completed (some ()), invocations := 1, sleeps := [],
        processedInc := 1, failedInc := 0 } := by
    rw [analyzeFileWithRetry]
    simp [alwaysOk]
  suffices haux : ∀ (n p q : Nat),
      List.foldl
        (fun acc b =>
          let r := analyzeFileWithRetry b 3 1000 0
          (acc.1 + r.processedInc, acc.2 + r.failedInc))
        (p, q) (List.replicate n alwaysOk) = (p + n, q) by
    simpa [runCounters] using haux k 0 0
  intro n
  induction n with
  | zero => intro p q; simp
  | succ m ih =>
      intro p q
      rw [List.replicate_succ, List.foldl_cons]
      simp only [hstep]
      rw [ih (p + 1) (q + 0)]
      simp only [Nat.add_zero]
      have harr : p + 1 + m = p + (m + 1) := by omega
      rw [harr]

/-! ### The claim C6 scenario -/

/-- Counterexample to claim C6 as stated: ten files of 9216 bytes (each
under 10 KiB, with a core extension) and two oversized files, with
`concurrentLimit = 5` and `batchSize = 10`, give skipped = 2 and ten
collected tasks, but the batch builder produces ten batches, not one,
because its byte cap is `batchSize * 1024 = 10240` bytes. -/
theorem c6_counterexample :
    (collectAndSortFiles (c6Tree (List.replicate 10 9216)) opts6).skippedFiles = 2 ∧
    (collectAndSortFiles (c6Tree (List.replicate 10 9216)) opts6).files.length = 10 ∧
    (buildDynamicBatches (collectAndSortFiles (c6Tree (List.replicate 10 9216)) opts6).files
        opts6).batches.length = 10 ∧
    (10 : Nat) ≠ 1 := by
  have hsmall : ∀ s ∈ List.replicate 10 9216, s < 10 * 1024 := by
    intro s hs
    have := List.eq_of_mem_replicate hs
    omega
  have hfiles : (collectAndSortFiles (c6Tree (List.replicate 10 9216)) opts6).files
      = List.replicate 10 (smallTs 9216) := by
    rw [collectAndSortFiles_files, c6_kept _ hsmall, List.map_replicate]
    have hm : ∀ b ∈ (List.replicate 10 (smallTs 9216)).mergeSort
        (fun a b => decide (calculateFilePriority b opts6 ≤ calculateFilePriority a opts6)),
        b = smallTs 9216 := by
      intro b hb
      exact List.eq_of_mem_replicate (List.mem_mergeSort.mp hb)
    have h := List.eq_replicate_of_mem hm
    rw [List.length_mergeSort, List.length_replicate] at h
    exact h
  refine ⟨?_, ?_, ?_, by omega⟩
  · rw [collectAndSortFiles_skipped, collectFilesPR_c6Tree, List.map_replicate]
    decide
  · rw [hfiles, List.length_replicate]
  · rw [hfiles]
    decide

/-- Claim C6 amended: the scenario additionally needs the ten small files
to fit the byte cap of the builder (total at most `batchSize * 1024 =
10240` bytes, which the code derives from the count option); then the run
reports skipped = 2 and 10 tasks, the builder produces exactly one batch,
a deterministic successful analyzer yields processed = 10 with failed = 0,
and the concurrency high-water mark is bounded by 5. -/
theorem c6_amended (szs : List Nat) (hlen : szs.length = 10)
    (hsmall : ∀ s ∈ szs, s < 10 * 1024) (hsum : szs.sum ≤ 10240) :
    (collectAndSortFiles (c6Tree szs) opts6).skippedFiles = 2 ∧
    (collectAndSortFiles (c6Tree szs) opts6).files.length = 10 ∧
    (buildDynamicBatches (collectAndSortFiles (c6Tree szs) opts6).files opts6).batches
      = [(collectAndSortFiles (c6Tree szs) opts6).files] ∧
    runCounters (List.replicate 10 alwaysOk) 3 1000 = (10, 0) ∧
    (∀ s : Semaphore, SemReachable 5 s → s.holders.length ≤ 5) := by
  have hfileseq : (collectAndSortFiles (c6Tree szs) opts6).files
      = (szs.map smallTs).mergeSort
          (fun a b => decide (calculateFilePriority b opts6 ≤ calculateFilePriority a opts6)) := by
    rw [collectAndSortFiles_files, c6_kept _ hsmall]
  have hflen : (collectAndSortFiles (c6Tree szs) opts6).files.length = 10 := by
    rw [hfileseq, List.length_mergeSort, List.length_map, hlen]
  have hfsum : sizeSum (collectAndSortFiles (c6Tree szs) opts6).files ≤ 10240 := by
    rw [hfileseq, sizeSum_mergeSort, sizeSum_map_smallTs]
    omega
  refine ⟨?_, hflen, ?_, runCounters_replicate_alwaysOk 10, ?_⟩
  · rw [collectAndSortFiles_skipped, collectFilesPR_c6Tree, List.countP_append]
    have h0 : (szs.map smallTs).countP
        (fun m => jsTruthyGt m.size (effMaxFileSize opts6)) = 0 := by
      apply List.countP_eq_zero.mpr
      intro m hm
      obtain ⟨s, hs, rfl⟩ := List.mem_map.mp hm
      have hlt := hsmall s hs
      have : effMaxFileSize opts6 = 100 * 1024 := by decide
      simp only [smallTs, jsTruthyGt, Bool.and_eq_true, bne_iff_ne, ne_eq,
        decide_eq_true_eq, not_and]
      omega
    rw [h0]
    decide
  · have hne : (collectAndSortFiles (c6Tree szs) opts6).files ≠ [] := by
      intro hnil
      rw [hnil] at hflen
      simp at hflen
    have h := buildBatchesCore_single (maxBatchBytes opts6) (jsOr opts6.batchSize 10)
      (collectAndSortFiles (c6Tree szs) opts6).files hne
      (by
        have : jsOr opts6.batchSize 10 = 10 := by decide
        omega)
      (by
        have : maxBatchBytes opts6 = 10240 := by decide
        omega)
    exact h
  · intro s h
    have := sem_holders_add_permits 5 s h
    omega

/-- Witness for the amended claim C6: ten files of 1024 bytes each. -/
theorem c6_amended_witness :
    (collectAndSortFiles (c6Tree (List.replicate 10 1024)) opts6).skippedFiles = 2 ∧
    (collectAndSortFiles (c6Tree (List.replicate 10 1024)) opts6).files.length = 10 ∧
    (buildDynamicBatches (collectAndSortFiles (c6Tree (List.replicate 10 1024)) opts6).files
        opts6).batches
      = [(collectAndSortFiles (c6Tree (List.replicate 10 1024)) opts6).files] ∧
    runCounters (List.replicate 10 alwaysOk) 3 1000 = (10, 0) ∧
    (∀ s : Semaphore, SemReachable 5 s → s.holders.length ≤ 5) := by
  apply c6_amended
  · decide
  · intro s hs
    have := List.eq_of_mem_replicate hs
    omega
  · decide

/-! ### Configuration validation and claim C8 -/

/-- The file queue of the one-file tree used against claim C8. -/
theorem pipelineFileQueue_treeC8 : pipelineFileQueue treeC8 = [aTsMeta] := by
  unfold pipelineFileQueue
  have h : collectFilesPR treeC8 = [aTsMeta] := by
    simp [treeC8, collectFilesPR, collectFilesPRList]
  rw [h, mergeSort_singleton]

/-- Counterexample to claim C8 as stated: with `concurrentLimit = 0`
(below 1, hence invalid per the claim) the pipeline does not fail before
work starts: it still collects the file and builds a batch, because
nothing in `analyzeProjectWithAI` or `validateConfig` checks
`concurrentLimit`. -/
theorem c8_counterexample :
    optsC8.concurrentLimit.getD 5 < 1 ∧
    (pipelineFileQueue treeC8).length = 1 ∧
    (analyzeProjectBatches treeC8 optsC8).length = 1 := by
  refine ⟨by decide, ?_, ?_⟩
  · rw [pipelineFileQueue_treeC8]
    rfl
  · simp only [analyzeProjectBatches, pipelineFileQueue_treeC8]
    decide

/-- Claim C8 amended: the analysis pipeline performs no configuration
validation, so a run with `concurrentLimit < 1` still collects every file
leaf and builds batches; no analyze call is ever admitted because a
semaphore initialized with zero permits never grants one (the run blocks
instead of failing).  Setup errors exist only in the scanner path:
`validateConfig` throws exactly when the merged `ScanConfig` has an empty
`rootPath` or a `maxDepth` outside `1..10` (`concurrentLimit` plays no
role), and on that error `scanProject` aborts before collection or
batching. -/
theorem c8_amended :
    (∀ (cwd : String) (cfg : ScanConfigPartial),
        (∃ e, validateConfig cwd cfg = .error e) ↔
          ¬ (1 ≤ (cfg.rootPath.getD cwd).length ∧
             1 ≤ cfg.maxDepth.getD 5 ∧ cfg.maxDepth.getD 5 ≤ 10)) ∧
    (∀ (cwd : String) (cfg : ScanConfigPartial) (tree : ProjectNode)
        (options : AnalysisOptions) (e : String),
        validateConfig cwd cfg = .error e →
        scanProjectPhases cwd cfg tree options = .error e) ∧
    (∀ tree : ProjectNode, (pipelineFileQueue tree).length = (collectFilesPR tree).length) ∧
    (∀ s : Semaphore, SemReachable 0 s → s.holders = []) := by
  refine ⟨?_, ?_, ?_, ?_⟩
  · intro cwd cfg
    simp only [validateConfig]
    split_ifs with h1 h2 h3
    · constructor
      · intro _
        omega
      · intro _
        exact ⟨_, rfl⟩
    · constructor
      · intro _
        omega
      · intro _
        exact ⟨_, rfl⟩
    · constructor
      · intro _
        omega
      · intro _
        exact ⟨_, rfl⟩
    · constructor
      · intro ⟨e, he⟩
        exact absurd he (by simp)
      · intro hc
        exact absurd ⟨by omega, by omega, by omega⟩ hc
  · intro cwd cfg tree options e he
    unfold scanProjectPhases
    rw [he]
  · intro tree
    unfold pipelineFileQueue
    exact List.length_mergeSort _
  · intro s h
    have h1 := sem_holders_add_permits 0 s h
    have h2 : s.holders.length = 0 := by omega
    exact List.length_eq_zero.mp h2

/-- Witness for the amended claim C8: `maxDepth = 0` is a setup error
(independently of any concurrency setting); the zero-permit initial state
holds no permit. -/
theorem c8_amended_witness :
    (∃ e, validateConfig ("/") { maxDepth := some 0 } = .error e) ∧
    (pipelineFileQueue treeC8).length = (collectFilesPR treeC8).length ∧
    (semInit 0).holders = [] := by
  refine ⟨(c8_amended.1 ("/") { maxDepth := some 0 }).mpr (by decide),
    c8_amended.2.2.1 treeC8,
    c8_amended.2.2.2 (semInit 0) Relation.ReflTransGen.refl⟩

end Octolens
